import Mathlib

/-!
Verification development for the StockPro inventory-management repository.

The repository is a thin browser front end over a relational schema
(`supabase/migrations/...` — here `src/unnamed/part_000`): the schema
declares the tables, unique keys, foreign keys with their delete actions,
and two generated columns; the React components issue the writes.  This
file gives a shallow embedding of that data-consistency subsystem:

* the eight entity tables become Lean structures over `Nat` identifiers,
  `Int` quantities and `Rat` monetary amounts;
* the generated columns (`stock_levels.available_quantity`,
  `purchase_order_items.total_price`) are stored fields that every write
  path recomputes, exactly as `GENERATED ALWAYS AS ... STORED` does;
* the movement-application logic of `StockMovements.tsx # handleSubmit`
  and the order-save logic of `Orders.tsx # handleSave` become state
  transformers on a `DB` record;
* the foreign-key delete actions (CASCADE / RESTRICT / SET NULL) become
  explicit delete operations returning `Except DBError DB`.
-/

namespace StockPro

/-- Errors surfaced by the store, following the spec's error taxonomy. -/
inductive DBError where
  | ConstraintViolation
  | RestrictedDelete
  | NotFound
  deriving DecidableEq, Repr

/-- `stock_movements.movement_type CHECK (movement_type IN ('IN','OUT','TRANSFER','ADJUSTMENT'))`. -/
inductive MovementType where
  | IN
  | OUT
  | TRANSFER
  | ADJUSTMENT
  deriving DecidableEq, Repr

/-- `purchase_orders.status CHECK (status IN ('DRAFT','PENDING','RECEIVED','CANCELLED'))`. -/
inductive POStatus where
  | DRAFT
  | PENDING
  | RECEIVED
  | CANCELLED
  deriving DecidableEq, Repr

/-- Row of `suppliers` (contact columns irrelevant to the claims are elided
to `name`; they carry no constraint). -/
structure Supplier where
  id : Nat
  name : String
  deriving DecidableEq, Repr

/-- Row of `warehouses`. -/
structure Warehouse where
  id : Nat
  name : String
  deriving DecidableEq, Repr

/-- Row of `products`.  `supplier_id` is nullable and `ON DELETE SET NULL`. -/
structure Product where
  id : Nat
  sku : String
  name : String
  supplier_id : Option Nat
  deriving DecidableEq, Repr

/-- Row of `stock_levels`.  `available_quantity` is the stored generated
column `GENERATED ALWAYS AS (quantity - reserved_quantity) STORED`: it is a
real field of the row, and every write path below recomputes it. -/
structure StockLevel where
  id : Nat
  product_id : Nat
  warehouse_id : Nat
  quantity : Int
  reserved_quantity : Int
  available_quantity : Int
  deriving DecidableEq, Repr

/-- Row of `stock_movements` (append-only ledger). -/
structure StockMovement where
  id : Nat
  product_id : Nat
  warehouse_id : Nat
  movement_type : MovementType
  quantity : Int
  reference_number : String
  notes : String
  deriving DecidableEq, Repr

/-- Row of `purchase_orders`. -/
structure PurchaseOrder where
  id : Nat
  po_number : String
  supplier_id : Nat
  warehouse_id : Nat
  order_date : String
  expected_date : Option String
  status : POStatus
  total_amount : Rat
  notes : String
  deriving DecidableEq, Repr

/-- Row of `purchase_order_items`.  `total_price` is the stored generated
column `GENERATED ALWAYS AS (quantity_ordered * unit_price) STORED`. -/
structure POItem where
  id : Nat
  purchase_order_id : Nat
  product_id : Nat
  quantity_ordered : Int
  quantity_received : Int
  unit_price : Rat
  total_price : Rat
  deriving DecidableEq, Repr

/-- The persisted state: one list per table, plus the id generator
(`gen_random_uuid()` abstracted as a counter handing out fresh `Nat`s). -/
structure DB where
  suppliers : List Supplier
  warehouses : List Warehouse
  products : List Product
  stock_levels : List StockLevel
  stock_movements : List StockMovement
  purchase_orders : List PurchaseOrder
  purchase_order_items : List POItem
  nextId : Nat
  deriving DecidableEq, Repr

/-! ## Movement application (`StockMovements.tsx # handleSubmit`) -/

/-- The movement form state submitted by `handleSubmit`. -/
structure MovementForm where
  product_id : Nat
  warehouse_id : Nat
  movement_type : MovementType
  quantity : Int
  reference_number : String
  notes : String
  deriving DecidableEq, Repr

/-- `quantityChange` in `handleSubmit`:
`movement_type === 'IN' || movement_type === 'ADJUSTMENT' ? parseInt(quantity) : -parseInt(quantity)`. -/
def quantityChange (mt : MovementType) (q : Int) : Int :=
  match mt with
  | .IN => q
  | .ADJUSTMENT => q
  | .OUT => -q
  | .TRANSFER => -q

/-- The `stock_levels` lookup
`.eq('product_id', ...).eq('warehouse_id', ...).maybeSingle()`. -/
def findLevel (db : DB) (pid wid : Nat) : Option StockLevel :=
  db.stock_levels.find? (fun sl => sl.product_id = pid && sl.warehouse_id = wid)

/-- The movement row built from the form (`movementData`), given the id
the store generates for it. -/
def movementRow (rid : Nat) (f : MovementForm) : StockMovement :=
  { id := rid
    product_id := f.product_id
    warehouse_id := f.warehouse_id
    movement_type := f.movement_type
    quantity := f.quantity
    reference_number := f.reference_number
    notes := f.notes }

/-- Step 1 of `handleSubmit`:
`await supabase.from('stock_movements').insert([movementData])`. -/
def insertMovement (db : DB) (f : MovementForm) : DB :=
  { db with
    stock_movements := db.stock_movements ++ [movementRow db.nextId f]
    nextId := db.nextId + 1 }

/-- The update branch writes `quantity: currentStock.quantity + quantityChange`;
the stored generated column `available_quantity` is recomputed by the
store from the new `quantity` and the untouched `reserved_quantity`. -/
def setQuantity (sl : StockLevel) (q : Int) : StockLevel :=
  { sl with quantity := q, available_quantity := q - sl.reserved_quantity }

/-- The insert branch writes `{product_id, warehouse_id, quantity: Math.max(0, quantityChange)}`;
`reserved_quantity` takes its column default `0` and `available_quantity`
is the generated `quantity - reserved_quantity`. -/
def newLevelRow (rid pid wid : Nat) (q : Int) : StockLevel :=
  { id := rid
    product_id := pid
    warehouse_id := wid
    quantity := q
    reserved_quantity := 0
    available_quantity := q - 0 }

/-- Step 2 of `handleSubmit`: look up the level for the pair; if present,
update that row's quantity by `quantityChange`; if absent, insert a fresh
row with `Math.max(0, quantityChange)`. -/
def upsertLevel (db : DB) (f : MovementForm) : DB :=
  let qc := quantityChange f.movement_type f.quantity
  match findLevel db f.product_id f.warehouse_id with
  | some cs =>
    { db with
      stock_levels := db.stock_levels.map (fun sl =>
        if sl.id = cs.id then setQuantity sl (cs.quantity + qc) else sl) }
  | none =>
    { db with
      stock_levels := db.stock_levels ++ [newLevelRow db.nextId f.product_id f.warehouse_id (max 0 qc)]
      nextId := db.nextId + 1 }

/-- The whole of `handleSubmit`'s store effect: insert the movement, then
upsert the level. -/
def recordMovement (db : DB) (f : MovementForm) : DB :=
  upsertLevel (insertMovement db f) f

/-- The sequence of states `handleSubmit` passes through: before any write,
after the movement insert, after the level upsert.  An interruption between
the two dependent writes leaves the store in one of these states. -/
def movementRunStates (db : DB) (f : MovementForm) : List DB :=
  [db, insertMovement db f, recordMovement db f]

/-! ## Purchase-order save (`Orders.tsx # handleSave`) -/

/-- The order form state (`formData`). -/
structure OrderForm where
  po_number : String
  supplier_id : Nat
  warehouse_id : Nat
  order_date : String
  expected_date : Option String
  status : POStatus
  notes : String
  deriving DecidableEq, Repr

/-- One entry of `orderItems` as submitted (`OrderItem` without the rows'
generated fields). -/
structure OrderItemForm where
  product_id : Nat
  quantity_ordered : Int
  quantity_received : Int
  unit_price : Rat
  deriving DecidableEq, Repr

/-- `calculateTotal`:
`orderItems.reduce((sum, item) => sum + item.quantity_ordered * item.unit_price, 0)`. -/
def calculateTotal (items : List OrderItemForm) : Rat :=
  items.foldl (fun sum it => sum + (it.quantity_ordered : Rat) * it.unit_price) 0

/-- The `purchase_order_items` row the store builds for one submitted item:
the caller supplies `purchase_order_id, product_id, quantity_ordered,
quantity_received, unit_price`; `total_price` is the stored generated column
`quantity_ordered * unit_price`. -/
def mkPOItem (rid oid : Nat) (it : OrderItemForm) : POItem :=
  { id := rid
    purchase_order_id := oid
    product_id := it.product_id
    quantity_ordered := it.quantity_ordered
    quantity_received := it.quantity_received
    unit_price := it.unit_price
    total_price := (it.quantity_ordered : Rat) * it.unit_price }

/-- The rows a bulk `insert(items)` produces, ids generated consecutively
from `rid`. -/
def mkItems (oid : Nat) : Nat → List OrderItemForm → List POItem
  | _, [] => []
  | rid, it :: rest => mkPOItem rid oid it :: mkItems oid (rid + 1) rest

/-- `modalMode` restricted to the two saving modes of `handleSave`. -/
inductive SaveMode where
  | create
  | edit (oid : Nat)
  deriving DecidableEq, Repr

/-- The `purchase_orders` row the create branch inserts: all form fields
plus `total_amount: total`; the store generates the id. -/
def createdPO (db : DB) (form : OrderForm) (items : List OrderItemForm) :
    PurchaseOrder :=
  { id := db.nextId
    po_number := form.po_number
    supplier_id := form.supplier_id
    warehouse_id := form.warehouse_id
    order_date := form.order_date
    expected_date := form.expected_date
    status := form.status
    total_amount := calculateTotal items
    notes := form.notes }

/-- The update payload of the edit branch applied to the selected order:
every form field except `po_number`, plus `total_amount: total`. -/
def editedPO (form : OrderForm) (items : List OrderItemForm)
    (po : PurchaseOrder) : PurchaseOrder :=
  { po with
    supplier_id := form.supplier_id
    warehouse_id := form.warehouse_id
    order_date := form.order_date
    expected_date := form.expected_date
    status := form.status
    total_amount := calculateTotal items
    notes := form.notes }

/-- `handleSave`: compute `total = calculateTotal()`.
In create mode, insert the order (with `total_amount: total`) — rejected by
the store when `po_number` collides with an existing order
(`po_number text UNIQUE NOT NULL`) — then bulk-insert the submitted items.
In edit mode, update the selected order's fields (`po_number` is not part of
the update payload), delete **all** `purchase_order_items` rows with
`purchase_order_id = selectedOrder.id`, then bulk-insert the submitted items
as fresh rows; an absent order id fails with `NotFound`. -/
def handleSave (db : DB) (mode : SaveMode) (form : OrderForm)
    (items : List OrderItemForm) : Except DBError DB :=
  match mode with
  | .create =>
    if db.purchase_orders.any (fun po => po.po_number = form.po_number) then
      .error .ConstraintViolation
    else
      let oid := db.nextId
      .ok { db with
        purchase_orders := db.purchase_orders ++ [createdPO db form items]
        purchase_order_items := db.purchase_order_items ++ mkItems oid (oid + 1) items
        nextId := oid + 1 + items.length }
  | .edit oid =>
    match db.purchase_orders.find? (fun po => po.id = oid) with
    | none => .error .NotFound
    | some _ =>
      .ok { db with
        purchase_orders := db.purchase_orders.map (fun po =>
          if po.id = oid then editedPO form items po else po)
        purchase_order_items :=
          (db.purchase_order_items.filter (fun it => ¬ it.purchase_order_id = oid))
            ++ mkItems oid db.nextId items
        nextId := db.nextId + items.length }

/-- The items belonging to one order. -/
def itemsOf (db : DB) (oid : Nat) : List POItem :=
  db.purchase_order_items.filter (fun it => it.purchase_order_id = oid)

/-- The id of the order a save writes: the freshly generated id in create
mode, the selected order's id in edit mode. -/
def savedOrderId (db : DB) : SaveMode → Nat
  | .create => db.nextId
  | .edit oid => oid

/-- The first generated item id of a save: in create mode the order itself
consumed `db.nextId`, so items start at `db.nextId + 1`. -/
def saveItemStartId (db : DB) : SaveMode → Nat
  | .create => db.nextId + 1
  | .edit _ => db.nextId

/-- Look up an order by id. -/
def findOrder (db : DB) (oid : Nat) : Option PurchaseOrder :=
  db.purchase_orders.find? (fun po => po.id = oid)

/-! ## Deletions and the foreign-key delete actions (schema, part_000)

The schema declares, and the store enforces:
`stock_levels.product_id → products ON DELETE CASCADE`,
`stock_levels.warehouse_id → warehouses ON DELETE CASCADE`,
`stock_movements.product_id → products ON DELETE CASCADE`,
`stock_movements.warehouse_id → warehouses ON DELETE CASCADE`,
`products.supplier_id → suppliers ON DELETE SET NULL`,
`purchase_orders.supplier_id → suppliers ON DELETE RESTRICT`,
`purchase_orders.warehouse_id → warehouses ON DELETE RESTRICT`,
`purchase_order_items.purchase_order_id → purchase_orders ON DELETE CASCADE`,
`purchase_order_items.product_id → products ON DELETE RESTRICT`.
Foreign-key existence checks on insert are not needed by any theorem below
and are left out of the insert operations. -/

/-- Delete a supplier: restricted while any purchase order references it;
otherwise the supplier row is removed and referencing products get
`supplier_id = NULL`. -/
def deleteSupplier (db : DB) (sid : Nat) : Except DBError DB :=
  if db.purchase_orders.any (fun po => po.supplier_id = sid) then
    .error .RestrictedDelete
  else
    .ok { db with
      suppliers := db.suppliers.filter (fun s => ¬ s.id = sid)
      products := db.products.map (fun p =>
        if p.supplier_id = some sid then { p with supplier_id := none } else p) }

/-- Delete a warehouse: restricted while any purchase order references it;
otherwise its stock levels and stock movements are cascaded away. -/
def deleteWarehouse (db : DB) (wid : Nat) : Except DBError DB :=
  if db.purchase_orders.any (fun po => po.warehouse_id = wid) then
    .error .RestrictedDelete
  else
    .ok { db with
      warehouses := db.warehouses.filter (fun w => ¬ w.id = wid)
      stock_levels := db.stock_levels.filter (fun sl => ¬ sl.warehouse_id = wid)
      stock_movements := db.stock_movements.filter (fun m => ¬ m.warehouse_id = wid) }

/-- Delete a product: restricted while any purchase-order item references
it; otherwise its stock levels and stock movements are cascaded away. -/
def deleteProduct (db : DB) (pid : Nat) : Except DBError DB :=
  if db.purchase_order_items.any (fun it => it.product_id = pid) then
    .error .RestrictedDelete
  else
    .ok { db with
      products := db.products.filter (fun p => ¬ p.id = pid)
      stock_levels := db.stock_levels.filter (fun sl => ¬ sl.product_id = pid)
      stock_movements := db.stock_movements.filter (fun m => ¬ m.product_id = pid) }

/-- Delete a purchase order (`Orders.tsx # handleDelete`): its items are
cascaded away; nothing references purchase orders with RESTRICT. -/
def deletePurchaseOrder (db : DB) (oid : Nat) : Except DBError DB :=
  .ok { db with
    purchase_orders := db.purchase_orders.filter (fun po => ¬ po.id = oid)
    purchase_order_items :=
      db.purchase_order_items.filter (fun it => ¬ it.purchase_order_id = oid) }

/-! ## Store-level writes to `stock_levels` and `purchase_order_items`

These mirror the `Insert` / `Update` payload types of
`src/lib/supabase.ts`: the generated columns `available_quantity` and
`total_price` are absent from both payloads, and the store computes them
on every write. -/

/-- `stock_levels` `Insert` payload (no `available_quantity` field exists;
`quantity` and `reserved_quantity` default to `0`). -/
structure StockLevelInsert where
  product_id : Nat
  warehouse_id : Nat
  quantity : Option Int
  reserved_quantity : Option Int
  deriving DecidableEq, Repr

/-- `stock_levels` `Update` payload (every column optional, no
`available_quantity` field exists). -/
structure StockLevelUpdate where
  product_id : Option Nat
  warehouse_id : Option Nat
  quantity : Option Int
  reserved_quantity : Option Int
  deriving DecidableEq, Repr

/-- Apply an update payload to a row; the stored generated column is
recomputed from the resulting `quantity` and `reserved_quantity`. -/
def applyLevelUpdate (u : StockLevelUpdate) (sl : StockLevel) : StockLevel :=
  let q := u.quantity.getD sl.quantity
  let rq := u.reserved_quantity.getD sl.reserved_quantity
  { id := sl.id
    product_id := u.product_id.getD sl.product_id
    warehouse_id := u.warehouse_id.getD sl.warehouse_id
    quantity := q
    reserved_quantity := rq
    available_quantity := q - rq }

/-- The row an insert payload produces: absent `quantity` and
`reserved_quantity` take their column default `0`; `available_quantity` is
the stored generated column. -/
def insertedLevelRow (db : DB) (req : StockLevelInsert) : StockLevel :=
  { id := db.nextId
    product_id := req.product_id
    warehouse_id := req.warehouse_id
    quantity := req.quantity.getD 0
    reserved_quantity := req.reserved_quantity.getD 0
    available_quantity := req.quantity.getD 0 - req.reserved_quantity.getD 0 }

/-- Insert a `stock_levels` row: `UNIQUE(product_id, warehouse_id)` rejects
a second row for an existing pair. -/
def insertStockLevel (db : DB) (req : StockLevelInsert) : Except DBError DB :=
  if db.stock_levels.any (fun sl =>
      sl.product_id = req.product_id && sl.warehouse_id = req.warehouse_id) then
    .error .ConstraintViolation
  else
    .ok { db with
      stock_levels := db.stock_levels ++ [insertedLevelRow db req]
      nextId := db.nextId + 1 }

/-- Update a `stock_levels` row by id: a no-op when the id is absent
(SQL `UPDATE` matching zero rows succeeds); rejected when the updated row
would collide with another row on `(product_id, warehouse_id)`. -/
def updateStockLevel (db : DB) (rid : Nat) (u : StockLevelUpdate) :
    Except DBError DB :=
  match db.stock_levels.find? (fun sl => sl.id = rid) with
  | none => .ok db
  | some cs =>
    let cs' := applyLevelUpdate u cs
    if db.stock_levels.any (fun s =>
        ¬ s.id = rid && s.product_id = cs'.product_id &&
          s.warehouse_id = cs'.warehouse_id) then
      .error .ConstraintViolation
    else
      .ok { db with
        stock_levels := db.stock_levels.map (fun s =>
          if s.id = rid then applyLevelUpdate u s else s) }

/-- Delete a `stock_levels` row by id. -/
def deleteStockLevel (db : DB) (rid : Nat) : Except DBError DB :=
  .ok { db with stock_levels := db.stock_levels.filter (fun sl => ¬ sl.id = rid) }

/-- `purchase_order_items` `Update` payload (no `total_price` field
exists). -/
structure POItemUpdate where
  purchase_order_id : Option Nat
  product_id : Option Nat
  quantity_ordered : Option Int
  quantity_received : Option Int
  unit_price : Option Rat
  deriving DecidableEq, Repr

/-- Apply an item update payload; the stored generated column `total_price`
is recomputed from the resulting `quantity_ordered` and `unit_price`. -/
def applyItemUpdate (u : POItemUpdate) (it : POItem) : POItem :=
  let qo := u.quantity_ordered.getD it.quantity_ordered
  let up := u.unit_price.getD it.unit_price
  { id := it.id
    purchase_order_id := u.purchase_order_id.getD it.purchase_order_id
    product_id := u.product_id.getD it.product_id
    quantity_ordered := qo
    quantity_received := u.quantity_received.getD it.quantity_received
    unit_price := up
    total_price := (qo : Rat) * up }

/-- Insert one `purchase_order_items` row at the store level. -/
def insertPOItem (db : DB) (oid : Nat) (it : OrderItemForm) : Except DBError DB :=
  .ok { db with
    purchase_order_items := db.purchase_order_items ++ [mkPOItem db.nextId oid it]
    nextId := db.nextId + 1 }

/-- Update a `purchase_order_items` row by id. -/
def updatePOItem (db : DB) (rid : Nat) (u : POItemUpdate) : Except DBError DB :=
  .ok { db with
    purchase_order_items := db.purchase_order_items.map (fun it =>
      if it.id = rid then applyItemUpdate u it else it) }

/-- Delete a `purchase_order_items` row by id. -/
def deletePOItem (db : DB) (rid : Nat) : Except DBError DB :=
  .ok { db with
    purchase_order_items :=
      db.purchase_order_items.filter (fun it => ¬ it.id = rid) }

/-! ## The operation alphabet and reachability -/

/-- Every mutating operation the model offers. -/
inductive Op where
  | insertLevel (req : StockLevelInsert)
  | updateLevel (rid : Nat) (u : StockLevelUpdate)
  | deleteLevel (rid : Nat)
  | move (f : MovementForm)
  | insertItem (oid : Nat) (it : OrderItemForm)
  | updateItem (rid : Nat) (u : POItemUpdate)
  | deleteItem (rid : Nat)
  | save (mode : SaveMode) (form : OrderForm) (items : List OrderItemForm)
  | delSupplier (sid : Nat)
  | delWarehouse (wid : Nat)
  | delProduct (pid : Nat)
  | delOrder (oid : Nat)

/-- Run one operation, surfacing its error if any. -/
def runOp (db : DB) : Op → Except DBError DB
  | .insertLevel req => insertStockLevel db req
  | .updateLevel rid u => updateStockLevel db rid u
  | .deleteLevel rid => deleteStockLevel db rid
  | .move f => .ok (recordMovement db f)
  | .insertItem oid it => insertPOItem db oid it
  | .updateItem rid u => updatePOItem db rid u
  | .deleteItem rid => deletePOItem db rid
  | .save mode form items => handleSave db mode form items
  | .delSupplier sid => deleteSupplier db sid
  | .delWarehouse wid => deleteWarehouse db wid
  | .delProduct pid => deleteProduct db pid
  | .delOrder oid => deletePurchaseOrder db oid

/-- A failed operation is terminal for the triggering action and leaves the
prior state unchanged (spec §7). -/
def applyOp (db : DB) (op : Op) : DB :=
  match runOp db op with
  | .ok db' => db'
  | .error _ => db

/-- Run a sequence of operations. -/
def applyOps (db : DB) : List Op → DB
  | [] => db
  | op :: ops => applyOps (applyOp db op) ops

/-! ## Invariants -/

/-- `available_quantity GENERATED ALWAYS AS (quantity - reserved_quantity)`:
every stored row agrees with its generator. -/
def LevelsDerived (db : DB) : Prop :=
  ∀ sl ∈ db.stock_levels, sl.available_quantity = sl.quantity - sl.reserved_quantity

/-- `total_price GENERATED ALWAYS AS (quantity_ordered * unit_price)`:
every stored row agrees with its generator. -/
def ItemsDerived (db : DB) : Prop :=
  ∀ it ∈ db.purchase_order_items,
    it.total_price = (it.quantity_ordered : Rat) * it.unit_price

/-- Two rows are allowed to coexist only when they differ on the
`(product_id, warehouse_id)` key. -/
def PairKeyDistinct (a b : StockLevel) : Prop :=
  ¬(a.product_id = b.product_id ∧ a.warehouse_id = b.warehouse_id)

/-- `UNIQUE(product_id, warehouse_id)`: at most one row per pair. -/
def UniquePairs (db : DB) : Prop :=
  db.stock_levels.Pairwise PairKeyDistinct

/-- Housekeeping facts the id generator maintains on `stock_levels`:
row ids are distinct and below the generator's next value. -/
def WfLevels (db : DB) : Prop :=
  (db.stock_levels.map (fun sl => sl.id)).Nodup ∧
    ∀ sl ∈ db.stock_levels, sl.id < db.nextId

/-- The full level invariant: id housekeeping plus pair uniqueness. -/
def LevelInv (db : DB) : Prop := WfLevels db ∧ UniquePairs db

instance (a b : StockLevel) : Decidable (PairKeyDistinct a b) :=
  inferInstanceAs (Decidable
    (¬(a.product_id = b.product_id ∧ a.warehouse_id = b.warehouse_id)))

instance (db : DB) : Decidable (UniquePairs db) :=
  inferInstanceAs (Decidable (db.stock_levels.Pairwise PairKeyDistinct))

instance (db : DB) : Decidable (WfLevels db) :=
  inferInstanceAs (Decidable
    ((db.stock_levels.map (fun sl : StockLevel => sl.id)).Nodup ∧
      ∀ sl ∈ db.stock_levels, sl.id < db.nextId))

instance (db : DB) : Decidable (LevelsDerived db) :=
  inferInstanceAs (Decidable (∀ sl ∈ db.stock_levels,
    sl.available_quantity = sl.quantity - sl.reserved_quantity))

instance (db : DB) : Decidable (ItemsDerived db) :=
  inferInstanceAs (Decidable (∀ it ∈ db.purchase_order_items,
    it.total_price = (it.quantity_ordered : Rat) * it.unit_price))

/-! ## Concrete fixtures used to instantiate the theorems -/

/-- A stock level of 10 on hand for product 10 at warehouse 20. -/
def exLevel : StockLevel :=
  { id := 1, product_id := 10, warehouse_id := 20, quantity := 10
    reserved_quantity := 0, available_quantity := 10 }

/-- A store holding one supplier, one warehouse, one product and one stock
level. -/
def exDB : DB :=
  { suppliers := [{ id := 3, name := "ACME" }]
    warehouses := [{ id := 20, name := "Main" }]
    products := [{ id := 10, sku := "SKU-10", name := "Widget", supplier_id := some 3 }]
    stock_levels := [exLevel]
    stock_movements := []
    purchase_orders := []
    purchase_order_items := []
    nextId := 30 }

/-- An OUT movement of 5 against the existing level. -/
def exOut5 : MovementForm :=
  { product_id := 10, warehouse_id := 20, movement_type := .OUT, quantity := 5
    reference_number := "", notes := "" }

/-- An IN movement of 10 against a pair with no prior level row. -/
def exIn10 : MovementForm :=
  { product_id := 11, warehouse_id := 20, movement_type := .IN, quantity := 10
    reference_number := "", notes := "" }

/-- An OUT movement of 7 as the first movement of its pair. -/
def exOutFirst : MovementForm :=
  { product_id := 11, warehouse_id := 20, movement_type := .OUT, quantity := 7
    reference_number := "", notes := "" }

/-- A TRANSFER of 4 out of the existing level's pair. -/
def exTransfer : MovementForm :=
  { product_id := 10, warehouse_id := 20, movement_type := .TRANSFER, quantity := 4
    reference_number := "", notes := "" }

/-- A store exercising the delete actions: order 100 references supplier 3
and warehouse 20, item 200 references product 10, while product 11 and
warehouse 21 only carry stock levels and movements. -/
def exDelDB : DB :=
  { suppliers := [{ id := 3, name := "ACME" }, { id := 4, name := "Bolt" }]
    warehouses := [{ id := 20, name := "Main" }, { id := 21, name := "Annex" }]
    products := [{ id := 10, sku := "SKU-10", name := "Widget", supplier_id := some 3 },
                 { id := 11, sku := "SKU-11", name := "Gadget", supplier_id := some 4 }]
    stock_levels := [exLevel,
      { id := 2, product_id := 11, warehouse_id := 21, quantity := 5,
        reserved_quantity := 1, available_quantity := 4 }]
    stock_movements := [
      { id := 5, product_id := 11, warehouse_id := 21,
        movement_type := .IN, quantity := 5, reference_number := "", notes := "" }]
    purchase_orders := [
      { id := 100, po_number := "PO20250001", supplier_id := 3,
        warehouse_id := 20, order_date := "2025-01-01", expected_date := none,
        status := .DRAFT, total_amount := 10, notes := "" }]
    purchase_order_items := [
      { id := 200, purchase_order_id := 100, product_id := 10,
        quantity_ordered := 2, quantity_received := 0, unit_price := 5, total_price := 10 }]
    nextId := 300 }

/-- A mixed operation sequence touching the stock-level table from every
side: movements, a (rejected) duplicate-pair insert, an update, a delete
and an order deletion. -/
def exLevelOps : List Op :=
  [.move exIn10, .move exOut5,
   .insertLevel { product_id := 10, warehouse_id := 20,
                  quantity := some 3, reserved_quantity := none },
   .updateLevel 1 { product_id := none, warehouse_id := none,
                    quantity := some 2, reserved_quantity := some 1 },
   .deleteLevel 31, .delOrder 100]

/-- An update that reserves 12 units on a level holding 10. -/
def exNegOps : List Op :=
  [.updateLevel 1 { product_id := none, warehouse_id := none,
                    quantity := none, reserved_quantity := some 12 }]

/-- Store-level item writes: an insert (which receives id 30) followed by
an update of that row's quantity and price. -/
def exItemOps : List Op :=
  [.insertItem 50 { product_id := 10, quantity_ordered := 2,
                    quantity_received := 0, unit_price := 5 },
   .updateItem 30 { purchase_order_id := none, product_id := none,
                    quantity_ordered := some 7, quantity_received := none,
                    unit_price := some 3 }]

/-- The old item row of order 100 in `exDelDB`. -/
def exOldItem : POItem :=
  { id := 200, purchase_order_id := 100, product_id := 10,
    quantity_ordered := 2, quantity_received := 0, unit_price := 5, total_price := 10 }

/-- A submitted order form. -/
def exForm : OrderForm :=
  { po_number := "PO20250002", supplier_id := 3, warehouse_id := 20,
    order_date := "2025-01-02", expected_date := none, status := .DRAFT, notes := "" }

/-- Two submitted order items: 2 × 5 and 3 × 4, total 22. -/
def exItems : List OrderItemForm :=
  [{ product_id := 10, quantity_ordered := 2, quantity_received := 0, unit_price := 5 },
   { product_id := 11, quantity_ordered := 3, quantity_received := 0, unit_price := 4 }]

end StockPro

namespace StockPro

/-! ## Shared lemmas about the movement upsert -/

/-- `find?` commutes with a map that does not disturb the predicate. -/
theorem find?_map_pres {α : Type} (f : α → α) (p : α → Bool)
    (h : ∀ a, p (f a) = p a) :
    ∀ l : List α, (l.map f).find? p = (l.find? p).map f := by
  intro l
  induction l with
  | nil => rfl
  | cons a t ih =>
    simp only [List.map_cons, List.find?_cons]
    rw [h a]
    cases p a <;> simp [ih]

/-- The level upsert never touches the movement ledger. -/
theorem upsertLevel_movements (db : DB) (f : MovementForm) :
    (upsertLevel db f).stock_movements = db.stock_movements := by
  cases h : findLevel db f.product_id f.warehouse_id <;> simp [upsertLevel, h]

/-- When the pair already has a row, the upsert maps an in-place quantity
update over the table. -/
theorem upsertLevel_found (db : DB) (f : MovementForm) (cs : StockLevel)
    (h : findLevel db f.product_id f.warehouse_id = some cs) :
    (upsertLevel db f).stock_levels = db.stock_levels.map (fun sl =>
      if sl.id = cs.id then
        setQuantity sl (cs.quantity + quantityChange f.movement_type f.quantity)
      else sl) := by
  simp [upsertLevel, h]

/-- When the pair has no row, the upsert appends a fresh row with quantity
`max 0 delta`. -/
theorem upsertLevel_absent (db : DB) (f : MovementForm)
    (h : findLevel db f.product_id f.warehouse_id = none) :
    (upsertLevel db f).stock_levels = db.stock_levels ++
      [newLevelRow db.nextId f.product_id f.warehouse_id
        (max 0 (quantityChange f.movement_type f.quantity))] := by
  simp [upsertLevel, h]

/-- `setQuantity` leaves the `(product_id, warehouse_id)` key alone, so the
pair-lookup predicate is blind to the upsert's in-place update. -/
theorem pairPred_update (cs : StockLevel) (q : Int) (pid wid : Nat) :
    ∀ sl : StockLevel,
      ((fun sl : StockLevel => sl.product_id = pid && sl.warehouse_id = wid)
        (if sl.id = cs.id then setQuantity sl q else sl)) =
      ((fun sl : StockLevel => sl.product_id = pid && sl.warehouse_id = wid) sl) := by
  intro sl
  by_cases hid : sl.id = cs.id <;> simp [hid, setQuantity]

/-- Pair lookup after a movement against an existing row: that row's
quantity moves by the signed delta. -/
theorem findLevel_recordMovement_found (db : DB) (f : MovementForm)
    (cs : StockLevel)
    (h : findLevel db f.product_id f.warehouse_id = some cs) :
    findLevel (recordMovement db f) f.product_id f.warehouse_id =
      some (setQuantity cs (cs.quantity + quantityChange f.movement_type f.quantity)) := by
  have h' : findLevel (insertMovement db f) f.product_id f.warehouse_id = some cs := h
  have h1 := upsertLevel_found (insertMovement db f) f cs h'
  show findLevel (upsertLevel (insertMovement db f) f) f.product_id f.warehouse_id = _
  rw [findLevel, h1,
    find?_map_pres _ _
      (pairPred_update cs (cs.quantity + quantityChange f.movement_type f.quantity)
        f.product_id f.warehouse_id)]
  have h'' : (insertMovement db f).stock_levels.find?
      (fun sl => sl.product_id = f.product_id && sl.warehouse_id = f.warehouse_id) = some cs := h'
  rw [h'']
  simp

/-- Pair lookup after a movement against an absent row: the freshly
inserted row is found. -/
theorem findLevel_recordMovement_absent (db : DB) (f : MovementForm)
    (h : findLevel db f.product_id f.warehouse_id = none) :
    findLevel (recordMovement db f) f.product_id f.warehouse_id =
      some (newLevelRow (db.nextId + 1) f.product_id f.warehouse_id
        (max 0 (quantityChange f.movement_type f.quantity))) := by
  have h' : findLevel (insertMovement db f) f.product_id f.warehouse_id = none := h
  have h1 := upsertLevel_absent (insertMovement db f) f h'
  show findLevel (upsertLevel (insertMovement db f) f) f.product_id f.warehouse_id = _
  rw [findLevel, h1, List.find?_append]
  have h'' : (insertMovement db f).stock_levels.find?
      (fun sl => sl.product_id = f.product_id && sl.warehouse_id = f.warehouse_id) = none := h'
  rw [h'']
  simp [newLevelRow, insertMovement]

/-! ## Claim theorems -/

/-- C1: recording a movement against a pair that already has a StockLevel
row updates that row's quantity to `old + delta`, where `delta = +quantity`
for IN or ADJUSTMENT and `delta = -quantity` for OUT or TRANSFER, with no
floor at zero; the reserved quantity is untouched. -/
theorem movement_updates_existing_level (db : DB) (f : MovementForm)
    (cs : StockLevel)
    (h : findLevel db f.product_id f.warehouse_id = some cs) :
    ∃ sl', findLevel (recordMovement db f) f.product_id f.warehouse_id = some sl' ∧
      sl'.quantity = cs.quantity +
        (match f.movement_type with
         | .IN => f.quantity
         | .ADJUSTMENT => f.quantity
         | .OUT => -f.quantity
         | .TRANSFER => -f.quantity) ∧
      sl'.reserved_quantity = cs.reserved_quantity := by
  refine ⟨setQuantity cs (cs.quantity + quantityChange f.movement_type f.quantity),
    findLevel_recordMovement_found db f cs h, ?_, rfl⟩
  cases f.movement_type <;> rfl

/-- C1 witness: OUT of 5 against an existing level of 10 yields 5. -/
theorem movement_updates_existing_level_witness :
    ∃ sl', findLevel (recordMovement exDB exOut5) 10 20 = some sl' ∧
      sl'.quantity = 5 := by
  obtain ⟨sl', h1, h2, -⟩ :=
    movement_updates_existing_level exDB exOut5 exLevel (by decide)
  exact ⟨sl', h1, by rw [h2]; decide⟩

/-- C2: recording a movement against a pair with no StockLevel row creates
a fresh row with `quantity = max 0 delta` and reserved quantity 0. -/
theorem movement_creates_new_level (db : DB) (f : MovementForm)
    (h : findLevel db f.product_id f.warehouse_id = none) :
    ∃ sl', findLevel (recordMovement db f) f.product_id f.warehouse_id = some sl' ∧
      sl'.quantity = max 0
        (match f.movement_type with
         | .IN => f.quantity
         | .ADJUSTMENT => f.quantity
         | .OUT => -f.quantity
         | .TRANSFER => -f.quantity) ∧
      sl'.reserved_quantity = 0 := by
  refine ⟨newLevelRow (db.nextId + 1) f.product_id f.warehouse_id
      (max 0 (quantityChange f.movement_type f.quantity)),
    findLevel_recordMovement_absent db f h, ?_, rfl⟩
  cases f.movement_type <;> rfl

/-- C2 witness: a first IN of 10 opens a level of 10; a first OUT of 7
opens a level of 0, not −7. -/
theorem movement_creates_new_level_witness :
    (∃ sl', findLevel (recordMovement exDB exIn10) 11 20 = some sl' ∧
      sl'.quantity = 10) ∧
    (∃ sl', findLevel (recordMovement exDB exOutFirst) 11 20 = some sl' ∧
      sl'.quantity = 0) := by
  constructor
  · obtain ⟨sl', h1, h2, -⟩ := movement_creates_new_level exDB exIn10 (by decide)
    exact ⟨sl', h1, by rw [h2]; decide⟩
  · obtain ⟨sl', h1, h2, -⟩ := movement_creates_new_level exDB exOutFirst (by decide)
    exact ⟨sl', h1, by rw [h2]; decide⟩

/-- C9: the movement application is two dependent writes in a fixed order —
insert the movement, then upsert the level.  The state after the first
write has the movement recorded and the levels unchanged (the reachable
partial outcome), and in every state of the run whose levels differ from
the initial ones the movement is recorded — level-changed-without-movement
is not a reachable outcome. -/
theorem movement_two_step_partial_failure (db : DB) (f : MovementForm) :
    ((insertMovement db f).stock_levels = db.stock_levels ∧
      movementRow db.nextId f ∈ (insertMovement db f).stock_movements) ∧
    ∀ s ∈ movementRunStates db f, s.stock_levels ≠ db.stock_levels →
      movementRow db.nextId f ∈ s.stock_movements := by
  constructor
  · exact ⟨rfl, by simp [insertMovement]⟩
  · intro s hs hne
    simp only [movementRunStates, List.mem_cons, List.mem_singleton,
      List.not_mem_nil, or_false] at hs
    rcases hs with rfl | rfl | rfl
    · exact absurd rfl hne
    · simp [insertMovement]
    · rw [recordMovement, upsertLevel_movements]
      simp [insertMovement]

/-- C9 witness: after the full run of an OUT movement the levels changed
and the movement row is in the ledger. -/
theorem movement_two_step_partial_failure_witness :
    movementRow 30 exOut5 ∈ (recordMovement exDB exOut5).stock_movements := by
  exact (movement_two_step_partial_failure exDB exOut5).2
    (recordMovement exDB exOut5) (by simp [movementRunStates]) (by decide)

/-- C8: a TRANSFER movement only touches the StockLevel row of its source
`(product_id, warehouse_id)` pair: lookups at every other pair are
unchanged, every row of the new table either carries the source pair or is
an untouched old row, and when the source row exists its quantity is
decremented by the movement quantity.  No destination-side increment exists
anywhere. -/
theorem transfer_touches_only_source_pair (db : DB) (f : MovementForm)
    (hT : f.movement_type = .TRANSFER)
    (hids : (db.stock_levels.map (fun sl => sl.id)).Nodup) :
    (∀ pid wid, ¬(pid = f.product_id ∧ wid = f.warehouse_id) →
      findLevel (recordMovement db f) pid wid = findLevel db pid wid) ∧
    (∀ sl ∈ (recordMovement db f).stock_levels,
      (sl.product_id = f.product_id ∧ sl.warehouse_id = f.warehouse_id) ∨
        sl ∈ db.stock_levels) ∧
    ∀ cs, findLevel db f.product_id f.warehouse_id = some cs →
      ∃ sl', findLevel (recordMovement db f) f.product_id f.warehouse_id = some sl' ∧
        sl'.quantity = cs.quantity - f.quantity := by
  cases h : findLevel db f.product_id f.warehouse_id with
  | some cs =>
    have hcs_mem : cs ∈ db.stock_levels := List.mem_of_find?_eq_some h
    have hcs_pair : cs.product_id = f.product_id ∧ cs.warehouse_id = f.warehouse_id := by
      simpa using List.find?_some h
    have hlv : (recordMovement db f).stock_levels = db.stock_levels.map (fun sl =>
        if sl.id = cs.id then
          setQuantity sl (cs.quantity + quantityChange f.movement_type f.quantity)
        else sl) := upsertLevel_found (insertMovement db f) f cs h
    refine ⟨?_, ?_, ?_⟩
    · intro pid wid hne
      simp only [findLevel] at *
      rw [hlv, find?_map_pres _ _ (pairPred_update cs _ pid wid)]
      cases hr : db.stock_levels.find?
          (fun sl => sl.product_id = pid && sl.warehouse_id = wid) with
      | none => rfl
      | some r =>
        have hr_mem : r ∈ db.stock_levels := List.mem_of_find?_eq_some hr
        have hr_pair : r.product_id = pid ∧ r.warehouse_id = wid := by
          simpa using List.find?_some hr
        have hrcs : ¬ r.id = cs.id := by
          intro hid
          apply hne
          have hreq : r = cs := List.inj_on_of_nodup_map hids hr_mem hcs_mem hid
          constructor
          · rw [← hr_pair.1, hreq, hcs_pair.1]
          · rw [← hr_pair.2, hreq, hcs_pair.2]
        simp [hrcs]
    · intro sl hsl
      rw [hlv] at hsl
      obtain ⟨a, ha, rfl⟩ := List.mem_map.mp hsl
      by_cases haid : a.id = cs.id
      · have haeq : a = cs := List.inj_on_of_nodup_map hids ha hcs_mem haid
        left
        subst haeq
        simp [haid, setQuantity, hcs_pair.1, hcs_pair.2]
      · right
        simpa [haid] using ha
    · intro cs' hcs'
      have hceq : cs' = cs := (Option.some.inj hcs').symm
      refine ⟨setQuantity cs (cs.quantity + quantityChange f.movement_type f.quantity),
        findLevel_recordMovement_found db f cs h, ?_⟩
      rw [hceq, hT]
      show cs.quantity + -f.quantity = cs.quantity - f.quantity
      ring
  | none =>
    have hlv : (recordMovement db f).stock_levels = db.stock_levels ++
        [newLevelRow (db.nextId + 1) f.product_id f.warehouse_id
          (max 0 (quantityChange f.movement_type f.quantity))] :=
      upsertLevel_absent (insertMovement db f) f h
    refine ⟨?_, ?_, ?_⟩
    · intro pid wid hne
      simp only [findLevel] at *
      rw [hlv, List.find?_append]
      have hnew : ([newLevelRow (db.nextId + 1) f.product_id
          f.warehouse_id (max 0 (quantityChange f.movement_type f.quantity))].find?
            (fun sl => sl.product_id = pid && sl.warehouse_id = wid)) = none := by
        simp only [List.find?_singleton, newLevelRow]
        have : ¬(f.product_id = pid ∧ f.warehouse_id = wid) := by
          intro hc
          exact hne ⟨hc.1.symm, hc.2.symm⟩
        simpa using this
      rw [hnew, Option.or_none]
    · intro sl hsl
      rw [hlv] at hsl
      rcases List.mem_append.mp hsl with hmem | hmem
      · exact Or.inr hmem
      · left
        rcases List.mem_singleton.mp hmem with rfl
        exact ⟨rfl, rfl⟩
    · intro cs hcs
      exact Option.noConfusion hcs

/-- C8 witness: a TRANSFER of 4 from the (10, 20) pair leaves the lookup at
(11, 20) unchanged and drops the source level from 10 to 6. -/
theorem transfer_touches_only_source_pair_witness :
    findLevel (recordMovement exDB exTransfer) 11 20 = findLevel exDB 11 20 ∧
    ∃ sl', findLevel (recordMovement exDB exTransfer) 10 20 = some sl' ∧
      sl'.quantity = 6 := by
  have h := transfer_touches_only_source_pair exDB exTransfer (by decide) (by decide)
  refine ⟨h.1 11 20 (by decide), ?_⟩
  obtain ⟨sl', h1, h2⟩ := h.2.2 exLevel (by decide)
  exact ⟨sl', h1, by rw [h2]; decide⟩

/-- C6: deletions follow the schema's foreign-key actions.  A supplier or
warehouse referenced by a purchase order, or a product referenced by an
order item, cannot be deleted: the operation fails with `RestrictedDelete`
and the state is unchanged.  An unreferenced product or warehouse deletion
cascades to its stock levels and stock movements, and a purchase-order
deletion cascades to its items. -/
theorem delete_cascade_and_restrict (db : DB) (sid wid pid oid : Nat) :
    ((∃ po ∈ db.purchase_orders, po.supplier_id = sid) →
      deleteSupplier db sid = .error .RestrictedDelete ∧
        applyOp db (.delSupplier sid) = db) ∧
    ((∃ po ∈ db.purchase_orders, po.warehouse_id = wid) →
      deleteWarehouse db wid = .error .RestrictedDelete ∧
        applyOp db (.delWarehouse wid) = db) ∧
    ((∃ it ∈ db.purchase_order_items, it.product_id = pid) →
      deleteProduct db pid = .error .RestrictedDelete ∧
        applyOp db (.delProduct pid) = db) ∧
    ((∀ it ∈ db.purchase_order_items, ¬ it.product_id = pid) →
      ∃ db', deleteProduct db pid = .ok db' ∧
        (∀ p ∈ db'.products, ¬ p.id = pid) ∧
        (∀ sl ∈ db'.stock_levels, ¬ sl.product_id = pid) ∧
        ∀ m ∈ db'.stock_movements, ¬ m.product_id = pid) ∧
    ((∀ po ∈ db.purchase_orders, ¬ po.warehouse_id = wid) →
      ∃ db', deleteWarehouse db wid = .ok db' ∧
        (∀ w ∈ db'.warehouses, ¬ w.id = wid) ∧
        (∀ sl ∈ db'.stock_levels, ¬ sl.warehouse_id = wid) ∧
        ∀ m ∈ db'.stock_movements, ¬ m.warehouse_id = wid) ∧
    ∃ db', deletePurchaseOrder db oid = .ok db' ∧
      (∀ po ∈ db'.purchase_orders, ¬ po.id = oid) ∧
      ∀ it ∈ db'.purchase_order_items, ¬ it.purchase_order_id = oid := by
  refine ⟨?_, ?_, ?_, ?_, ?_, ?_⟩
  · intro hex
    have hc : db.purchase_orders.any (fun po => po.supplier_id = sid) = true := by
      simpa [List.any_eq_true] using hex
    exact ⟨by simp [deleteSupplier, hc], by simp [applyOp, runOp, deleteSupplier, hc]⟩
  · intro hex
    have hc : db.purchase_orders.any (fun po => po.warehouse_id = wid) = true := by
      simpa [List.any_eq_true] using hex
    exact ⟨by simp [deleteWarehouse, hc], by simp [applyOp, runOp, deleteWarehouse, hc]⟩
  · intro hex
    have hc : db.purchase_order_items.any (fun it => it.product_id = pid) = true := by
      simpa [List.any_eq_true] using hex
    exact ⟨by simp [deleteProduct, hc], by simp [applyOp, runOp, deleteProduct, hc]⟩
  · intro hall
    have hc : db.purchase_order_items.any (fun it => it.product_id = pid) = false := by
      simpa [List.any_eq_false] using hall
    refine ⟨{ db with
        products := db.products.filter (fun p => ¬ p.id = pid)
        stock_levels := db.stock_levels.filter (fun sl => ¬ sl.product_id = pid)
        stock_movements := db.stock_movements.filter (fun m => ¬ m.product_id = pid) },
      by simp [deleteProduct, hc], ?_, ?_, ?_⟩
    · intro p hp
      exact of_decide_eq_true (List.mem_filter.mp hp).2
    · intro sl hsl
      exact of_decide_eq_true (List.mem_filter.mp hsl).2
    · intro m hm
      exact of_decide_eq_true (List.mem_filter.mp hm).2
  · intro hall
    have hc : db.purchase_orders.any (fun po => po.warehouse_id = wid) = false := by
      simpa [List.any_eq_false] using hall
    refine ⟨{ db with
        warehouses := db.warehouses.filter (fun w => ¬ w.id = wid)
        stock_levels := db.stock_levels.filter (fun sl => ¬ sl.warehouse_id = wid)
        stock_movements := db.stock_movements.filter (fun m => ¬ m.warehouse_id = wid) },
      by simp [deleteWarehouse, hc], ?_, ?_, ?_⟩
    · intro w hw
      exact of_decide_eq_true (List.mem_filter.mp hw).2
    · intro sl hsl
      exact of_decide_eq_true (List.mem_filter.mp hsl).2
    · intro m hm
      exact of_decide_eq_true (List.mem_filter.mp hm).2
  · refine ⟨_, rfl, ?_, ?_⟩
    · intro po hpo
      exact of_decide_eq_true (List.mem_filter.mp hpo).2
    · intro it hit
      exact of_decide_eq_true (List.mem_filter.mp hit).2

/-- C6 witness: in `exDelDB`, deleting supplier 3, warehouse 20 or product
10 is rejected without touching the state, deleting product 11 cascades its
level and movement away, and deleting order 100 removes its item. -/
theorem delete_cascade_and_restrict_witness :
    (deleteSupplier exDelDB 3 = .error .RestrictedDelete ∧
      applyOp exDelDB (.delSupplier 3) = exDelDB) ∧
    (deleteWarehouse exDelDB 20 = .error .RestrictedDelete ∧
      applyOp exDelDB (.delWarehouse 20) = exDelDB) ∧
    (deleteProduct exDelDB 10 = .error .RestrictedDelete ∧
      applyOp exDelDB (.delProduct 10) = exDelDB) ∧
    (∃ db', deleteProduct exDelDB 11 = .ok db' ∧
      (∀ p ∈ db'.products, ¬ p.id = 11) ∧
      (∀ sl ∈ db'.stock_levels, ¬ sl.product_id = 11) ∧
      ∀ m ∈ db'.stock_movements, ¬ m.product_id = 11) ∧
    ∃ db', deletePurchaseOrder exDelDB 100 = .ok db' ∧
      (∀ po ∈ db'.purchase_orders, ¬ po.id = 100) ∧
      ∀ it ∈ db'.purchase_order_items, ¬ it.purchase_order_id = 100 := by
  have h1 := delete_cascade_and_restrict exDelDB 3 20 10 100
  have h2 := delete_cascade_and_restrict exDelDB 3 20 11 100
  exact ⟨h1.1 (by decide), h1.2.1 (by decide), h1.2.2.1 (by decide),
    h2.2.2.2.1 (by decide), h1.2.2.2.2.2⟩

/-! ## Shared lemmas about the order save -/

/-- Unfolding the `reduce` of `calculateTotal` into a mapped sum. -/
theorem foldl_add_total (l : List OrderItemForm) :
    ∀ a : Rat, l.foldl (fun sum it => sum + (it.quantity_ordered : Rat) * it.unit_price) a =
      a + (l.map (fun it => (it.quantity_ordered : Rat) * it.unit_price)).sum := by
  induction l with
  | nil => intro a; simp
  | cons x t ih =>
    intro a
    simp only [List.foldl_cons, List.map_cons, List.sum_cons]
    rw [ih]
    ring

/-- `calculateTotal` is the sum of the per-line products. -/
theorem calculateTotal_eq_sum (l : List OrderItemForm) :
    calculateTotal l =
      (l.map (fun it => (it.quantity_ordered : Rat) * it.unit_price)).sum := by
  rw [calculateTotal, foldl_add_total, zero_add]

/-- The generated `total_price` column of freshly inserted items recovers
the per-line products. -/
theorem mkItems_map_total (oid : Nat) (l : List OrderItemForm) :
    ∀ rid, (mkItems oid rid l).map (fun it => it.total_price) =
      l.map (fun it => (it.quantity_ordered : Rat) * it.unit_price) := by
  induction l with
  | nil => intro rid; rfl
  | cons x t ih =>
    intro rid
    simp only [mkItems, List.map_cons, mkPOItem]
    rw [ih]

/-- Freshly inserted items all belong to the saved order. -/
theorem mkItems_oid (oid : Nat) (l : List OrderItemForm) :
    ∀ rid, ∀ it ∈ mkItems oid rid l, it.purchase_order_id = oid := by
  induction l with
  | nil => intro rid it hit; cases hit
  | cons x t ih =>
    intro rid it hit
    rcases List.mem_cons.mp hit with rfl | h
    · rfl
    · exact ih (rid + 1) it h

/-- Freshly inserted items carry generated ids at or above the generator's
starting value. -/
theorem mkItems_id_ge (oid : Nat) (l : List OrderItemForm) :
    ∀ rid, ∀ it ∈ mkItems oid rid l, rid ≤ it.id := by
  induction l with
  | nil => intro rid it hit; cases hit
  | cons x t ih =>
    intro rid it hit
    rcases List.mem_cons.mp hit with rfl | h
    · exact le_refl rid
    · exact le_trans (Nat.le_succ rid) (ih (rid + 1) it h)

/-- What a successful create-mode save did to the store. -/
theorem handleSave_create_ok (db : DB) (form : OrderForm)
    (items : List OrderItemForm) (db' : DB)
    (hok : handleSave db .create form items = .ok db') :
    db'.purchase_orders = db.purchase_orders ++ [createdPO db form items] ∧
    db'.purchase_order_items =
      db.purchase_order_items ++ mkItems db.nextId (db.nextId + 1) items ∧
    db'.stock_levels = db.stock_levels ∧ db.nextId ≤ db'.nextId := by
  cases hpn : db.purchase_orders.any (fun po => po.po_number = form.po_number) with
  | true => simp [handleSave, hpn] at hok
  | false =>
    simp only [handleSave, hpn, Bool.false_eq_true, if_false, Except.ok.injEq] at hok
    rw [← hok]
    refine ⟨rfl, rfl, rfl, ?_⟩
    show db.nextId ≤ db.nextId + 1 + items.length
    omega

/-- What a successful edit-mode save did to the store. -/
theorem handleSave_edit_ok (db : DB) (form : OrderForm)
    (items : List OrderItemForm) (oid : Nat) (db' : DB)
    (hok : handleSave db (.edit oid) form items = .ok db') :
    db'.purchase_orders = db.purchase_orders.map (fun po =>
      if po.id = oid then editedPO form items po else po) ∧
    db'.purchase_order_items =
      (db.purchase_order_items.filter (fun it => ¬ it.purchase_order_id = oid))
        ++ mkItems oid db.nextId items ∧
    db'.stock_levels = db.stock_levels ∧ db.nextId ≤ db'.nextId := by
  cases hf : db.purchase_orders.find? (fun po => po.id = oid) with
  | none => simp [handleSave, hf] at hok
  | some po₀ =>
    simp only [handleSave, hf, Except.ok.injEq] at hok
    rw [← hok]
    refine ⟨rfl, rfl, rfl, ?_⟩
    show db.nextId ≤ db.nextId + items.length
    omega

/-- After any save, the items of the saved order are exactly the freshly
inserted rows, provided (in create mode) no stale item references the
about-to-be-generated order id. -/
theorem itemsOf_after_save (db : DB) (mode : SaveMode) (form : OrderForm)
    (items : List OrderItemForm) (db' : DB)
    (hitems : ∀ it ∈ db.purchase_order_items, it.purchase_order_id < db.nextId)
    (hok : handleSave db mode form items = .ok db') :
    itemsOf db' (savedOrderId db mode) =
      mkItems (savedOrderId db mode) (saveItemStartId db mode) items := by
  have hself : ∀ oid rid, (mkItems oid rid items).filter
      (fun it => it.purchase_order_id = oid) = mkItems oid rid items := by
    intro oid rid
    rw [List.filter_eq_self]
    intro it hit
    simp [mkItems_oid oid items rid it hit]
  cases mode with
  | create =>
    obtain ⟨-, hi, -, -⟩ := handleSave_create_ok db form items db' hok
    show itemsOf db' db.nextId = mkItems db.nextId (db.nextId + 1) items
    rw [itemsOf, hi, List.filter_append]
    have h1 : db.purchase_order_items.filter
        (fun it => it.purchase_order_id = db.nextId) = [] := by
      rw [List.filter_eq_nil_iff]
      intro it hit
      simp only [decide_eq_true_eq]
      exact Nat.ne_of_lt (hitems it hit)
    rw [h1, List.nil_append, hself]
  | edit oid =>
    obtain ⟨-, hi, -, -⟩ := handleSave_edit_ok db form items oid db' hok
    show itemsOf db' oid = mkItems oid db.nextId items
    rw [itemsOf, hi, List.filter_append]
    have h1 : (db.purchase_order_items.filter
        (fun it => ¬ it.purchase_order_id = oid)).filter
          (fun it => it.purchase_order_id = oid) = [] := by
      rw [List.filter_eq_nil_iff]
      intro it hit
      have := (List.mem_filter.mp hit).2
      simp only [decide_eq_true_eq] at this ⊢
      exact this
    rw [h1, List.nil_append, hself]

/-! ## Claim theorems about the order save -/

/-- C7: after every successful save — create or edit — the saved order's
`total_amount` equals the sum of its items' generated `total_price`
values. -/
theorem order_total_matches_items_sum (db : DB) (mode : SaveMode)
    (form : OrderForm) (items : List OrderItemForm) (db' : DB)
    (horders : ∀ po ∈ db.purchase_orders, po.id < db.nextId)
    (hitems : ∀ it ∈ db.purchase_order_items, it.purchase_order_id < db.nextId)
    (hok : handleSave db mode form items = .ok db') :
    ∃ po, findOrder db' (savedOrderId db mode) = some po ∧
      po.total_amount =
        ((itemsOf db' (savedOrderId db mode)).map (fun it => it.total_price)).sum := by
  have hsum := itemsOf_after_save db mode form items db' hitems hok
  cases mode with
  | create =>
    obtain ⟨ho, -⟩ := handleSave_create_ok db form items db' hok
    refine ⟨createdPO db form items, ?_, ?_⟩
    · show findOrder db' db.nextId = _
      rw [findOrder, ho, List.find?_append]
      have hnone : db.purchase_orders.find? (fun po => po.id = db.nextId) = none := by
        rw [List.find?_eq_none]
        intro po hpo
        simp only [decide_eq_true_eq]
        exact Nat.ne_of_lt (horders po hpo)
      rw [hnone]
      simp [createdPO]
    · rw [hsum, mkItems_map_total]
      exact calculateTotal_eq_sum items
  | edit oid =>
    obtain ⟨ho, -⟩ := handleSave_edit_ok db form items oid db' hok
    cases hf : db.purchase_orders.find? (fun po => po.id = oid) with
    | none => simp [handleSave, hf] at hok
    | some po₀ =>
      have hpo₀ : po₀.id = oid := by
        simpa using List.find?_some hf
      refine ⟨editedPO form items po₀, ?_, ?_⟩
      · show findOrder db' oid = _
        rw [findOrder, ho, find?_map_pres _ _ ?hpres, hf]
        · simp [hpo₀]
        case hpres =>
          intro po
          by_cases hid : po.id = oid <;> simp [hid, editedPO]
      · rw [hsum, mkItems_map_total]
        exact calculateTotal_eq_sum items

/-- C7 witness: creating an order with items 2 × 5 and 3 × 4 stores
`total_amount = 22`, the sum of the stored items' `total_price`. -/
theorem order_total_matches_items_sum_witness :
    ∃ db' po, handleSave exDB .create exForm exItems = .ok db' ∧
      findOrder db' 30 = some po ∧
      po.total_amount =
        ((itemsOf db' 30).map (fun it => it.total_price)).sum ∧
      po.total_amount = 22 := by
  cases hh : handleSave exDB .create exForm exItems with
  | error e =>
    have hisOk : (handleSave exDB .create exForm exItems).isOk = true := by decide
    rw [hh] at hisOk
    exact Bool.noConfusion hisOk
  | ok db' =>
    obtain ⟨po, h1, h2⟩ := order_total_matches_items_sum exDB .create exForm exItems db'
      (by decide) (by decide) hh
    refine ⟨db', po, rfl, h1, h2, ?_⟩
    obtain ⟨ho, -⟩ := handleSave_create_ok exDB exForm exItems db' hh
    have h1' : findOrder db' 30 = some po := h1
    rw [findOrder, ho] at h1'
    have hpo : createdPO exDB exForm exItems = po := by
      simpa [exDB, createdPO] using h1'
    rw [← hpo]
    show calculateTotal exItems = 22
    norm_num [calculateTotal, exItems]

/-- C10: a successful edit-save replaces the order's item set wholesale:
afterwards its rows are exactly the submitted list inserted as fresh rows
with newly generated ids, and every previously stored row of the order —
whatever its `quantity_received` — is gone from the table. -/
theorem edit_save_replaces_item_set (db : DB) (form : OrderForm)
    (items : List OrderItemForm) (oid : Nat) (db' : DB)
    (hids : (db.purchase_order_items.map (fun it => it.id)).Nodup)
    (hlt : ∀ it ∈ db.purchase_order_items, it.id < db.nextId)
    (hok : handleSave db (.edit oid) form items = .ok db') :
    itemsOf db' oid = mkItems oid db.nextId items ∧
    ∀ r ∈ db.purchase_order_items, r.purchase_order_id = oid →
      ∀ r' ∈ db'.purchase_order_items, ¬ r'.id = r.id := by
  obtain ⟨-, hi, -, -⟩ := handleSave_edit_ok db form items oid db' hok
  constructor
  · have h1 : (db.purchase_order_items.filter
        (fun it => ¬ it.purchase_order_id = oid)).filter
          (fun it => it.purchase_order_id = oid) = [] := by
      rw [List.filter_eq_nil_iff]
      intro it hit
      have := (List.mem_filter.mp hit).2
      simp only [decide_eq_true_eq] at this ⊢
      exact this
    have h2 : (mkItems oid db.nextId items).filter
        (fun it => it.purchase_order_id = oid) = mkItems oid db.nextId items := by
      rw [List.filter_eq_self]
      intro it hit
      simp [mkItems_oid oid items db.nextId it hit]
    rw [itemsOf, hi, List.filter_append, h1, h2, List.nil_append]
  · intro r hr hroid r' hr' hid
    rw [hi] at hr'
    rcases List.mem_append.mp hr' with hmem | hmem
    · have hr'mem : r' ∈ db.purchase_order_items := (List.mem_filter.mp hmem).1
      have hr'oid : ¬ r'.purchase_order_id = oid := by
        have := (List.mem_filter.mp hmem).2
        simpa using this
      have : r' = r := List.inj_on_of_nodup_map hids hr'mem hr hid
      rw [this] at hr'oid
      exact hr'oid hroid
    · have hge : db.nextId ≤ r'.id := mkItems_id_ge oid items db.nextId r' hmem
      have hltr : r.id < db.nextId := hlt r hr
      omega

/-- C10 witness: edit-saving order 100 with two fresh items removes the old
item row (id 200) and stores exactly the submitted list. -/
theorem edit_save_replaces_item_set_witness :
    ∃ db', handleSave exDelDB (.edit 100) exForm exItems = .ok db' ∧
      itemsOf db' 100 = mkItems 100 300 exItems ∧
      ∀ r' ∈ db'.purchase_order_items, ¬ r'.id = 200 := by
  cases hh : handleSave exDelDB (.edit 100) exForm exItems with
  | error e =>
    have hisOk : (handleSave exDelDB (.edit 100) exForm exItems).isOk = true := by decide
    rw [hh] at hisOk
    exact Bool.noConfusion hisOk
  | ok db' =>
    obtain ⟨h1, h2⟩ := edit_save_replaces_item_set exDelDB exForm exItems 100 db'
      (by decide) (by decide) hh
    refine ⟨db', rfl, h1, ?_⟩
    intro r' hr'
    exact h2 exOldItem (by decide) rfl r' hr'

/-! ## Shared lemmas: preservation of the level invariant -/

/-- Pair distinctness is symmetric. -/
theorem pairKeyDistinct_symm : Symmetric PairKeyDistinct := by
  intro a b hab hc
  exact hab ⟨hc.1.symm, hc.2.symm⟩

/-- A state whose level table shrank to a sublist, with the id generator
not moving backwards, keeps the level invariant. -/
theorem levelInv_of_sublist (db db' : DB)
    (hsub : db'.stock_levels.Sublist db.stock_levels)
    (hnext : db.nextId ≤ db'.nextId) (h : LevelInv db) : LevelInv db' := by
  obtain ⟨⟨hnd, hlt⟩, hup⟩ := h
  refine ⟨⟨hnd.sublist (hsub.map (fun sl => sl.id)), ?_⟩, hup.sublist hsub⟩
  intro sl hsl
  exact lt_of_lt_of_le (hlt sl (hsub.subset hsl)) hnext

/-- A state with the same level table and a generator that did not move
backwards keeps the level invariant. -/
theorem levelInv_of_eq_levels (db db' : DB)
    (hlv : db'.stock_levels = db.stock_levels)
    (hnext : db.nextId ≤ db'.nextId) (h : LevelInv db) : LevelInv db' :=
  levelInv_of_sublist db db' (by rw [hlv]) hnext h

/-- Appending one row with a fresh id and an unoccupied pair keeps the
level invariant. -/
theorem levelInv_append_fresh (db db' : DB) (row : StockLevel)
    (hid : row.id = db.nextId)
    (habs : ∀ sl ∈ db.stock_levels,
      ¬(sl.product_id = row.product_id ∧ sl.warehouse_id = row.warehouse_id))
    (hlv : db'.stock_levels = db.stock_levels ++ [row])
    (hnext : db.nextId < db'.nextId) (h : LevelInv db) : LevelInv db' := by
  obtain ⟨⟨hnd, hlt⟩, hup⟩ := h
  refine ⟨⟨?_, ?_⟩, ?_⟩
  · rw [hlv, List.map_append, List.nodup_append]
    refine ⟨hnd, List.nodup_singleton _, ?_⟩
    intro a ha hb
    obtain ⟨sl, hsl, rfl⟩ := List.mem_map.mp ha
    have hb' : sl.id = row.id := by
      have : sl.id ∈ [row].map (fun sl => sl.id) := hb
      simpa using this
    have := hlt sl hsl
    rw [hb', hid] at this
    exact absurd this (lt_irrefl _)
  · intro sl hsl
    rw [hlv] at hsl
    rcases List.mem_append.mp hsl with hmem | hmem
    · exact lt_of_lt_of_le (hlt sl hmem) (le_of_lt hnext)
    · rcases List.mem_singleton.mp hmem with rfl
      rw [hid]
      exact hnext
  · show db'.stock_levels.Pairwise PairKeyDistinct
    rw [hlv, List.pairwise_append]
    refine ⟨hup, List.pairwise_singleton _ _, ?_⟩
    intro a ha b hb
    rcases List.mem_singleton.mp hb with rfl
    exact habs a ha

/-- Replacing (by id) the one row carrying a target id, without installing
a pair held by any other row, keeps the level invariant. -/
theorem levelInv_map_update (db db' : DB) (rid : Nat)
    (rep : StockLevel → StockLevel)
    (hrep_id : ∀ sl, (rep sl).id = sl.id)
    (hpair : ∀ sl ∈ db.stock_levels, sl.id = rid →
      ∀ other ∈ db.stock_levels, ¬ other.id = rid →
        ¬((rep sl).product_id = other.product_id ∧
          (rep sl).warehouse_id = other.warehouse_id))
    (hlv : db'.stock_levels = db.stock_levels.map (fun sl =>
      if sl.id = rid then rep sl else sl))
    (hnext : db.nextId ≤ db'.nextId) (h : LevelInv db) : LevelInv db' := by
  obtain ⟨⟨hnd, hlt⟩, hup⟩ := h
  have hgid : ∀ sl : StockLevel, (if sl.id = rid then rep sl else sl).id = sl.id := by
    intro sl
    by_cases hc : sl.id = rid
    · rw [if_pos hc, hrep_id]
    · rw [if_neg hc]
  refine ⟨⟨?_, ?_⟩, ?_⟩
  · rw [hlv, List.map_map]
    have heq : db.stock_levels.map
        ((fun sl => sl.id) ∘ (fun sl => if sl.id = rid then rep sl else sl)) =
        db.stock_levels.map (fun sl => sl.id) :=
      List.map_congr_left (fun a _ => hgid a)
    rw [heq]
    exact hnd
  · intro sl hsl
    rw [hlv] at hsl
    obtain ⟨a, ha, rfl⟩ := List.mem_map.mp hsl
    rw [hgid a]
    exact lt_of_lt_of_le (hlt a ha) hnext
  · show db'.stock_levels.Pairwise PairKeyDistinct
    rw [hlv, List.pairwise_map]
    apply List.Pairwise.imp_of_mem ?_ hup
    intro a b ha hb hab
    show PairKeyDistinct (if a.id = rid then rep a else a)
      (if b.id = rid then rep b else b)
    by_cases hca : a.id = rid
    · by_cases hcb : b.id = rid
      · exfalso
        have : a = b := List.inj_on_of_nodup_map hnd ha hb (by rw [hca, hcb])
        exact hab (by rw [this]; exact ⟨rfl, rfl⟩)
      · rw [if_pos hca, if_neg hcb]
        exact hpair a ha hca b hb hcb
    · by_cases hcb : b.id = rid
      · rw [if_neg hca, if_pos hcb]
        intro hc
        exact hpair b hb hcb a ha hca ⟨hc.1.symm, hc.2.symm⟩
      · rw [if_neg hca, if_neg hcb]
        exact hab

/-- The movement upsert keeps the level invariant. -/
theorem levelInv_upsertLevel (db : DB) (f : MovementForm) (h : LevelInv db) :
    LevelInv (upsertLevel db f) := by
  cases hfl : findLevel db f.product_id f.warehouse_id with
  | none =>
    refine levelInv_append_fresh db _
      (newLevelRow db.nextId f.product_id f.warehouse_id
        (max 0 (quantityChange f.movement_type f.quantity)))
      rfl ?_ (upsertLevel_absent db f hfl) ?_ h
    · intro sl hsl hc
      have hnone := List.find?_eq_none.mp hfl sl hsl
      exact hnone (by simp [newLevelRow] at hc; simp [hc.1, hc.2])
    · simp [upsertLevel, hfl]
  | some cs =>
    have hcs_mem : cs ∈ db.stock_levels := List.mem_of_find?_eq_some hfl
    have hcs_pair : cs.product_id = f.product_id ∧ cs.warehouse_id = f.warehouse_id := by
      simpa using List.find?_some hfl
    refine levelInv_map_update db _ cs.id
      (fun sl => setQuantity sl (cs.quantity + quantityChange f.movement_type f.quantity))
      (fun _ => rfl) ?_ (upsertLevel_found db f cs hfl) ?_ h
    · intro sl hsl hslid other hother hotherid hc
      have hsleq : sl = cs :=
        List.inj_on_of_nodup_map h.1.1 hsl hcs_mem (by rw [hslid])
      have hdist : PairKeyDistinct cs other :=
        List.Pairwise.forall pairKeyDistinct_symm h.2 hcs_mem hother
          (fun hcseq => hotherid (by rw [← hcseq]))
      apply hdist
      constructor
      · rw [← hc.1, hsleq]
        rfl
      · rw [← hc.2, hsleq]
        rfl
    · simp [upsertLevel, hfl]

/-- Every single store operation keeps the level invariant. -/
theorem levelInv_applyOp (db : DB) (op : Op) (h : LevelInv db) :
    LevelInv (applyOp db op) := by
  cases op with
  | insertLevel req =>
    cases hc : db.stock_levels.any (fun sl =>
        sl.product_id = req.product_id && sl.warehouse_id = req.warehouse_id) with
    | true => simpa [applyOp, runOp, insertStockLevel, hc] using h
    | false =>
      have happ : applyOp db (.insertLevel req) = { db with
          stock_levels := db.stock_levels ++ [insertedLevelRow db req]
          nextId := db.nextId + 1 } := by
        simp [applyOp, runOp, insertStockLevel, hc]
      rw [happ]
      refine levelInv_append_fresh db _ (insertedLevelRow db req) rfl ?_ rfl
        (Nat.lt_succ_self _) h
      intro sl hsl hcp
      have hnot := List.any_eq_false.mp hc sl hsl
      simp only [Bool.and_eq_true, decide_eq_true_eq, not_and] at hnot
      exact hnot hcp.1 hcp.2
  | updateLevel rid u =>
    cases hf : db.stock_levels.find? (fun sl => sl.id = rid) with
    | none => simpa [applyOp, runOp, updateStockLevel, hf] using h
    | some cs =>
      by_cases hc : ∃ x ∈ db.stock_levels,
          (¬x.id = rid ∧ x.product_id = (applyLevelUpdate u cs).product_id) ∧
            x.warehouse_id = (applyLevelUpdate u cs).warehouse_id
      · simpa [applyOp, runOp, updateStockLevel, hf, hc] using h
      · have happ : applyOp db (.updateLevel rid u) = { db with
            stock_levels := db.stock_levels.map (fun s =>
              if s.id = rid then applyLevelUpdate u s else s) } := by
          simp [applyOp, runOp, updateStockLevel, hf, hc]
        rw [happ]
        refine levelInv_map_update db _ rid (applyLevelUpdate u)
          (fun _ => rfl) ?_ rfl (le_refl _) h
        intro sl hsl hslid other hother hotherid hcp
        have hcs_mem : cs ∈ db.stock_levels := List.mem_of_find?_eq_some hf
        have hcsid : cs.id = rid := by simpa using List.find?_some hf
        have hsleq : sl = cs :=
          List.inj_on_of_nodup_map h.1.1 hsl hcs_mem (by rw [hslid, hcsid])
        rw [hsleq] at hcp
        exact hc ⟨other, hother, ⟨hotherid, hcp.1.symm⟩, hcp.2.symm⟩
  | deleteLevel rid =>
    exact levelInv_of_sublist db _ (List.filter_sublist _) (le_refl _) h
  | move f =>
    have h1 : LevelInv (insertMovement db f) :=
      levelInv_of_eq_levels db _ rfl (Nat.le_succ _) h
    exact levelInv_upsertLevel (insertMovement db f) f h1
  | insertItem oid it =>
    exact levelInv_of_eq_levels db _ rfl (Nat.le_succ _) h
  | updateItem rid u =>
    exact levelInv_of_eq_levels db _ rfl (le_refl _) h
  | deleteItem rid =>
    exact levelInv_of_eq_levels db _ rfl (le_refl _) h
  | save mode form items =>
    cases hrun : handleSave db mode form items with
    | error e => simpa [applyOp, runOp, hrun] using h
    | ok d =>
      have happ : applyOp db (.save mode form items) = d := by
        simp [applyOp, runOp, hrun]
      rw [happ]
      cases mode with
      | create =>
        obtain ⟨-, -, hlv, hn⟩ := handleSave_create_ok db form items d hrun
        exact levelInv_of_eq_levels db d hlv hn h
      | edit oid =>
        obtain ⟨-, -, hlv, hn⟩ := handleSave_edit_ok db form items oid d hrun
        exact levelInv_of_eq_levels db d hlv hn h
  | delSupplier sid =>
    cases hc : db.purchase_orders.any (fun po => po.supplier_id = sid) with
    | true => simpa [applyOp, runOp, deleteSupplier, hc] using h
    | false =>
      refine levelInv_of_eq_levels db _ ?_ ?_ h
      · simp [applyOp, runOp, deleteSupplier, hc]
      · simp [applyOp, runOp, deleteSupplier, hc]
  | delWarehouse wid =>
    cases hc : db.purchase_orders.any (fun po => po.warehouse_id = wid) with
    | true => simpa [applyOp, runOp, deleteWarehouse, hc] using h
    | false =>
      refine levelInv_of_sublist db _ ?_ ?_ h
      · have hlv : (applyOp db (.delWarehouse wid)).stock_levels =
            db.stock_levels.filter (fun sl => ¬ sl.warehouse_id = wid) := by
          simp [applyOp, runOp, deleteWarehouse, hc]
        rw [hlv]
        exact List.filter_sublist _
      · have hn : (applyOp db (.delWarehouse wid)).nextId = db.nextId := by
          simp [applyOp, runOp, deleteWarehouse, hc]
        exact le_of_eq hn.symm
  | delProduct pid =>
    cases hc : db.purchase_order_items.any (fun it => it.product_id = pid) with
    | true => simpa [applyOp, runOp, deleteProduct, hc] using h
    | false =>
      refine levelInv_of_sublist db _ ?_ ?_ h
      · have hlv : (applyOp db (.delProduct pid)).stock_levels =
            db.stock_levels.filter (fun sl => ¬ sl.product_id = pid) := by
          simp [applyOp, runOp, deleteProduct, hc]
        rw [hlv]
        exact List.filter_sublist _
      · have hn : (applyOp db (.delProduct pid)).nextId = db.nextId := by
          simp [applyOp, runOp, deleteProduct, hc]
        exact le_of_eq hn.symm
  | delOrder oid =>
    exact levelInv_of_eq_levels db _ rfl (le_refl _) h

/-- The level invariant is preserved along any operation sequence. -/
theorem levelInv_applyOps (db : DB) (ops : List Op) (h : LevelInv db) :
    LevelInv (applyOps db ops) := by
  induction ops generalizing db with
  | nil => exact h
  | cons op rest ih => exact ih (applyOp db op) (levelInv_applyOp db op h)

/-- C5: starting from a store whose level rows have distinct generated ids
below the id counter and pairwise-distinct `(product_id, warehouse_id)`
keys, no sequence of create/update/delete/movement operations can produce
a second row for the same pair. -/
theorem at_most_one_level_row_per_pair (db : DB) (ops : List Op)
    (hwf : WfLevels db) (huniq : UniquePairs db) :
    UniquePairs (applyOps db ops) :=
  (levelInv_applyOps db ops ⟨hwf, huniq⟩).2

/-- C5 witness: running movements, a duplicate-pair insert, an update and
deletes over `exDB` keeps one row per pair. -/
theorem at_most_one_level_row_per_pair_witness :
    WfLevels exDB ∧ UniquePairs exDB ∧ UniquePairs (applyOps exDB exLevelOps) :=
  ⟨by decide, by decide,
    at_most_one_level_row_per_pair exDB exLevelOps (by decide) (by decide)⟩

/-! ## Shared lemmas: preservation of the generated columns -/

/-- `LevelsDerived` transfers along unchanged level tables. -/
theorem levelsDerived_of_eq (db db' : DB)
    (hlv : db'.stock_levels = db.stock_levels) (h : LevelsDerived db) :
    LevelsDerived db' := by
  intro sl hsl
  rw [hlv] at hsl
  exact h sl hsl

/-- The movement upsert keeps every row's `available_quantity` equal to
`quantity - reserved_quantity`. -/
theorem levelsDerived_upsertLevel (db : DB) (f : MovementForm)
    (h : LevelsDerived db) : LevelsDerived (upsertLevel db f) := by
  cases hfl : findLevel db f.product_id f.warehouse_id with
  | some cs =>
    intro sl hsl
    rw [upsertLevel_found db f cs hfl] at hsl
    obtain ⟨a, ha, rfl⟩ := List.mem_map.mp hsl
    by_cases hc : a.id = cs.id
    · rw [if_pos hc]
      rfl
    · rw [if_neg hc]
      exact h a ha
  | none =>
    intro sl hsl
    rw [upsertLevel_absent db f hfl] at hsl
    rcases List.mem_append.mp hsl with hm | hm
    · exact h sl hm
    · rcases List.mem_singleton.mp hm with rfl
      rfl

/-- Every single store operation keeps the `available_quantity` generator
satisfied. -/
theorem levelsDerived_applyOp (db : DB) (op : Op) (h : LevelsDerived db) :
    LevelsDerived (applyOp db op) := by
  cases op with
  | insertLevel req =>
    cases hc : db.stock_levels.any (fun sl =>
        sl.product_id = req.product_id && sl.warehouse_id = req.warehouse_id) with
    | true => simpa [applyOp, runOp, insertStockLevel, hc] using h
    | false =>
      have happ : applyOp db (.insertLevel req) = { db with
          stock_levels := db.stock_levels ++ [insertedLevelRow db req]
          nextId := db.nextId + 1 } := by
        simp [applyOp, runOp, insertStockLevel, hc]
      rw [happ]
      intro sl hsl
      rcases List.mem_append.mp hsl with hm | hm
      · exact h sl hm
      · rcases List.mem_singleton.mp hm with rfl
        rfl
  | updateLevel rid u =>
    cases hf : db.stock_levels.find? (fun sl => sl.id = rid) with
    | none => simpa [applyOp, runOp, updateStockLevel, hf] using h
    | some cs =>
      by_cases hc : ∃ x ∈ db.stock_levels,
          (¬x.id = rid ∧ x.product_id = (applyLevelUpdate u cs).product_id) ∧
            x.warehouse_id = (applyLevelUpdate u cs).warehouse_id
      · simpa [applyOp, runOp, updateStockLevel, hf, hc] using h
      · have happ : applyOp db (.updateLevel rid u) = { db with
            stock_levels := db.stock_levels.map (fun s =>
              if s.id = rid then applyLevelUpdate u s else s) } := by
          simp [applyOp, runOp, updateStockLevel, hf, hc]
        rw [happ]
        intro sl hsl
        obtain ⟨a, ha, rfl⟩ := List.mem_map.mp hsl
        by_cases hca : a.id = rid
        · rw [if_pos hca]
          rfl
        · rw [if_neg hca]
          exact h a ha
  | deleteLevel rid =>
    intro sl hsl
    exact h sl (List.mem_of_mem_filter hsl)
  | move f =>
    exact levelsDerived_upsertLevel (insertMovement db f) f
      (levelsDerived_of_eq db _ rfl h)
  | insertItem oid it => exact levelsDerived_of_eq db _ rfl h
  | updateItem rid u => exact levelsDerived_of_eq db _ rfl h
  | deleteItem rid => exact levelsDerived_of_eq db _ rfl h
  | save mode form items =>
    cases hrun : handleSave db mode form items with
    | error e => simpa [applyOp, runOp, hrun] using h
    | ok d =>
      have happ : applyOp db (.save mode form items) = d := by
        simp [applyOp, runOp, hrun]
      rw [happ]
      cases mode with
      | create =>
        obtain ⟨-, -, hlv, -⟩ := handleSave_create_ok db form items d hrun
        exact levelsDerived_of_eq db d hlv h
      | edit oid =>
        obtain ⟨-, -, hlv, -⟩ := handleSave_edit_ok db form items oid d hrun
        exact levelsDerived_of_eq db d hlv h
  | delSupplier sid =>
    cases hc : db.purchase_orders.any (fun po => po.supplier_id = sid) with
    | true => simpa [applyOp, runOp, deleteSupplier, hc] using h
    | false =>
      refine levelsDerived_of_eq db _ ?_ h
      simp [applyOp, runOp, deleteSupplier, hc]
  | delWarehouse wid =>
    cases hc : db.purchase_orders.any (fun po => po.warehouse_id = wid) with
    | true => simpa [applyOp, runOp, deleteWarehouse, hc] using h
    | false =>
      have hlv : (applyOp db (.delWarehouse wid)).stock_levels =
          db.stock_levels.filter (fun sl => ¬ sl.warehouse_id = wid) := by
        simp [applyOp, runOp, deleteWarehouse, hc]
      intro sl hsl
      rw [hlv] at hsl
      exact h sl (List.mem_of_mem_filter hsl)
  | delProduct pid =>
    cases hc : db.purchase_order_items.any (fun it => it.product_id = pid) with
    | true => simpa [applyOp, runOp, deleteProduct, hc] using h
    | false =>
      have hlv : (applyOp db (.delProduct pid)).stock_levels =
          db.stock_levels.filter (fun sl => ¬ sl.product_id = pid) := by
        simp [applyOp, runOp, deleteProduct, hc]
      intro sl hsl
      rw [hlv] at hsl
      exact h sl (List.mem_of_mem_filter hsl)
  | delOrder oid => exact levelsDerived_of_eq db _ rfl h

/-- C3: after every write along any operation sequence, every StockLevel
row satisfies `available_quantity = quantity - reserved_quantity`; the
payload types offer no field through which a caller could supply the
value. -/
theorem available_quantity_invariant (db : DB) (ops : List Op)
    (h : LevelsDerived db) : LevelsDerived (applyOps db ops) := by
  induction ops generalizing db with
  | nil => exact h
  | cons op rest ih => exact ih (applyOp db op) (levelsDerived_applyOp db op h)

/-- C3 witness: reserving 12 units on a level holding 10 keeps the
generator satisfied and leaves `available_quantity = -2` — negative, with
no clamping. -/
theorem available_quantity_invariant_witness :
    LevelsDerived exDB ∧ LevelsDerived (applyOps exDB exNegOps) ∧
      (findLevel (applyOps exDB exNegOps) 10 20).map
        (fun sl => sl.available_quantity) = some (-2) :=
  ⟨by decide, available_quantity_invariant exDB exNegOps (by decide), by decide⟩

/-- `ItemsDerived` transfers along unchanged item tables. -/
theorem itemsDerived_of_eq (db db' : DB)
    (hit : db'.purchase_order_items = db.purchase_order_items)
    (h : ItemsDerived db) : ItemsDerived db' := by
  intro it hmem
  rw [hit] at hmem
  exact h it hmem

/-- Freshly inserted items satisfy the `total_price` generator. -/
theorem mkItems_derived (oid : Nat) (l : List OrderItemForm) :
    ∀ rid, ∀ it ∈ mkItems oid rid l,
      it.total_price = (it.quantity_ordered : Rat) * it.unit_price := by
  induction l with
  | nil => intro rid it hit; cases hit
  | cons x t ih =>
    intro rid it hit
    rcases List.mem_cons.mp hit with rfl | hm
    · rfl
    · exact ih (rid + 1) it hm

/-- Every single store operation keeps the `total_price` generator
satisfied. -/
theorem itemsDerived_applyOp (db : DB) (op : Op) (h : ItemsDerived db) :
    ItemsDerived (applyOp db op) := by
  cases op with
  | insertLevel req =>
    cases hc : db.stock_levels.any (fun sl =>
        sl.product_id = req.product_id && sl.warehouse_id = req.warehouse_id) with
    | true => simpa [applyOp, runOp, insertStockLevel, hc] using h
    | false =>
      refine itemsDerived_of_eq db _ ?_ h
      simp [applyOp, runOp, insertStockLevel, hc]
  | updateLevel rid u =>
    cases hf : db.stock_levels.find? (fun sl => sl.id = rid) with
    | none => simpa [applyOp, runOp, updateStockLevel, hf] using h
    | some cs =>
      by_cases hc : ∃ x ∈ db.stock_levels,
          (¬x.id = rid ∧ x.product_id = (applyLevelUpdate u cs).product_id) ∧
            x.warehouse_id = (applyLevelUpdate u cs).warehouse_id
      · simpa [applyOp, runOp, updateStockLevel, hf, hc] using h
      · refine itemsDerived_of_eq db _ ?_ h
        simp [applyOp, runOp, updateStockLevel, hf, hc]
  | deleteLevel rid => exact itemsDerived_of_eq db _ rfl h
  | move f =>
    refine itemsDerived_of_eq db _ ?_ h
    show (upsertLevel (insertMovement db f) f).purchase_order_items = _
    rw [show (upsertLevel (insertMovement db f) f).purchase_order_items =
      (insertMovement db f).purchase_order_items from ?_]
    · rfl
    · cases hfl : findLevel (insertMovement db f) f.product_id f.warehouse_id <;>
        simp [upsertLevel, hfl]
  | insertItem oid it =>
    intro r hr
    rcases List.mem_append.mp hr with hm | hm
    · exact h r hm
    · rcases List.mem_singleton.mp hm with rfl
      rfl
  | updateItem rid u =>
    intro r hr
    obtain ⟨a, ha, rfl⟩ := List.mem_map.mp hr
    by_cases hca : a.id = rid
    · rw [if_pos hca]
      rfl
    · rw [if_neg hca]
      exact h a ha
  | deleteItem rid =>
    intro r hr
    exact h r (List.mem_of_mem_filter hr)
  | save mode form items =>
    cases hrun : handleSave db mode form items with
    | error e => simpa [applyOp, runOp, hrun] using h
    | ok d =>
      have happ : applyOp db (.save mode form items) = d := by
        simp [applyOp, runOp, hrun]
      rw [happ]
      cases mode with
      | create =>
        obtain ⟨-, hit, -, -⟩ := handleSave_create_ok db form items d hrun
        intro r hr
        rw [hit] at hr
        rcases List.mem_append.mp hr with hm | hm
        · exact h r hm
        · exact mkItems_derived db.nextId items (db.nextId + 1) r hm
      | edit oid =>
        obtain ⟨-, hit, -, -⟩ := handleSave_edit_ok db form items oid d hrun
        intro r hr
        rw [hit] at hr
        rcases List.mem_append.mp hr with hm | hm
        · exact h r (List.mem_of_mem_filter hm)
        · exact mkItems_derived oid items db.nextId r hm
  | delSupplier sid =>
    cases hc : db.purchase_orders.any (fun po => po.supplier_id = sid) with
    | true => simpa [applyOp, runOp, deleteSupplier, hc] using h
    | false =>
      refine itemsDerived_of_eq db _ ?_ h
      simp [applyOp, runOp, deleteSupplier, hc]
  | delWarehouse wid =>
    cases hc : db.purchase_orders.any (fun po => po.warehouse_id = wid) with
    | true => simpa [applyOp, runOp, deleteWarehouse, hc] using h
    | false =>
      refine itemsDerived_of_eq db _ ?_ h
      simp [applyOp, runOp, deleteWarehouse, hc]
  | delProduct pid =>
    cases hc : db.purchase_order_items.any (fun it => it.product_id = pid) with
    | true => simpa [applyOp, runOp, deleteProduct, hc] using h
    | false =>
      refine itemsDerived_of_eq db _ ?_ h
      simp [applyOp, runOp, deleteProduct, hc]
  | delOrder oid =>
    intro r hr
    exact h r (List.mem_of_mem_filter hr)

/-- C4: after every write along any operation sequence, every
PurchaseOrderItem row satisfies `total_price = quantity_ordered *
unit_price`; the payload types offer no field through which a caller could
supply the value. -/
theorem total_price_invariant (db : DB) (ops : List Op)
    (h : ItemsDerived db) : ItemsDerived (applyOps db ops) := by
  induction ops generalizing db with
  | nil => exact h
  | cons op rest ih => exact ih (applyOp db op) (itemsDerived_applyOp db op h)

/-- C4 witness: inserting an item and then rewriting its quantity and
price keeps every row's `total_price` equal to the recomputed product. -/
theorem total_price_invariant_witness :
    ItemsDerived exDB ∧ ItemsDerived (applyOps exDB exItemOps) :=
  ⟨by decide, total_price_invariant exDB exItemOps (by decide)⟩

end StockPro
